import Mathlib

/-!
Verification of the aarch64 boot-configuration fragment of a micro-VM
monitor (`src/vmm/src/arch/aarch64/mod.rs`) and its network byte-order
accessor library (`src/vmm/src/dumbo/pdu/bytes.rs`), shallowly embedded
over `Nat` (machine integers carry explicit `% 2^w` where overflow can
occur in release builds).
-/

namespace Firecracker

/-- Modelled from the spec: the `layout` module is referenced by `mod.rs`
but its source is not part of the fragment; spec §3 lists the constants.
Value: base of guest DRAM on aarch64 (2 GiB). -/
def DRAM_MEM_START : Nat := 0x80000000

/-- Modelled from the spec: `layout::DRAM_MEM_MAX_SIZE`, the hard ceiling
on guest DRAM for this platform (just under 1 TiB; the in-source test
clamps `1 << 41` down to it). -/
def DRAM_MEM_MAX_SIZE : Nat := 0xFF80000000

/-- Modelled from the spec: `layout::FDT_MAX_SIZE`, the maximum size of
the flattened-device-tree blob reserved at the top of DRAM. -/
def FDT_MAX_SIZE : Nat := 0x200000

/-- Modelled from the spec: `GUEST_PAGE_SIZE`, the guest page granularity
used for initrd alignment. -/
def GUEST_PAGE_SIZE : Nat := 4096

/-- Modelled from the spec: `GuestMemoryMmap` from the external
`vm_memory` crate. `mod.rs` uses it only through `last_addr()` and
`address_in_range` (spec §3 "GuestMemory", §6 collaborator contract), so
the model is exactly those two observations. -/
structure GuestMem where
  last_addr : Nat
  address_in_range : Nat → Bool

/-- Rust `u64::checked_sub` (also `GuestAddress::checked_sub`): defined
exactly when the subtraction does not underflow. -/
def checked_sub (a b : Nat) : Option Nat :=
  if b ≤ a then some (a - b) else none

/-- Embedding of `get_fdt_addr` (mod.rs:147-159): subtract
`FDT_MAX_SIZE - 1` from `last_addr()` with `checked_sub`; if defined and
in range return it, otherwise fall through to `DRAM_MEM_START`. -/
def get_fdt_addr (mem : GuestMem) : Nat :=
  match checked_sub mem.last_addr (FDT_MAX_SIZE - 1) with
  | some addr => if mem.address_in_range addr then addr else DRAM_MEM_START
  | none => DRAM_MEM_START

/-- Embedding of `arch_memory_regions` (mod.rs:60-63): a single region at
`DRAM_MEM_START` of length `min(size, DRAM_MEM_MAX_SIZE)`. -/
def arch_memory_regions (size : Nat) : List (Nat × Nat) :=
  [(DRAM_MEM_START, min size DRAM_MEM_MAX_SIZE)]

/-- Modelled from the spec: a concrete guest memory built from a region
list, as the external `vm_memory` crate does — `last_addr` is the
maximal last address of any region and `address_in_range` is membership
in some region. Mirrors the `arch_mem` test helper when applied to
`arch_memory_regions`. -/
def regionsMem (regions : List (Nat × Nat)) : GuestMem where
  last_addr := regions.foldl (fun m r => max m (r.1 + r.2 - 1)) 0
  address_in_range := fun a =>
    regions.any fun r => decide (r.1 ≤ a) && decide (a ≤ r.1 + r.2 - 1)

/-- Guest memory of `size` bytes at `DRAM_MEM_START`, as produced by the
`arch_mem` test helper from `arch_memory_regions`. -/
def arch_mem (size : Nat) : GuestMem :=
  regionsMem (arch_memory_regions size)

/-- Embedding of the `round_to_pagesize` closure (mod.rs:132-133):
`(size + (GUEST_PAGE_SIZE - 1)) & !(GUEST_PAGE_SIZE - 1)` on `usize`,
with release-mode wrapping addition (`% 2^64`) and the complement mask
`!(GUEST_PAGE_SIZE - 1) = 2^64 - GUEST_PAGE_SIZE`. -/
def round_to_pagesize (size : Nat) : Nat :=
  ((size + (GUEST_PAGE_SIZE - 1)) % 2 ^ 64) &&& (2 ^ 64 - GUEST_PAGE_SIZE)

/-- Embedding of `initrd_load_addr` (mod.rs:131-144): checked subtraction
of the page-rounded initrd size from the FDT address, returned iff in
range. -/
def initrd_load_addr (guest_mem : GuestMem) (initrd_size : Nat) : Option Nat :=
  match checked_sub (get_fdt_addr guest_mem) (round_to_pagesize initrd_size) with
  | some offset =>
    if guest_mem.address_in_range offset then some offset else none
  | none => none

/-- Mathematical round-up to a multiple of `GUEST_PAGE_SIZE`, following
the spec's words "round `initrd_size` up to `GUEST_PAGE_SIZE`" (no
wrap-around). Used only to state the claim's reading of the code. -/
def roundUpSpec (n : Nat) : Nat :=
  (n + (GUEST_PAGE_SIZE - 1)) / GUEST_PAGE_SIZE * GUEST_PAGE_SIZE

/-- The initrd placement rule as the spec words it: candidate
`get_fdt_addr − (initrd_size rounded up)` by checked subtraction,
returned iff within guest memory, nothing on overflow. -/
def initrd_load_addr_spec (guest_mem : GuestMem) (initrd_size : Nat) : Option Nat :=
  match checked_sub (get_fdt_addr guest_mem) (roundUpSpec initrd_size) with
  | some offset =>
    if guest_mem.address_in_range offset then some offset else none
  | none => none

example : get_fdt_addr (arch_mem (FDT_MAX_SIZE + 0x1000)) = DRAM_MEM_START + 0x1000 := by decide
example : get_fdt_addr (arch_mem FDT_MAX_SIZE) = DRAM_MEM_START := by decide
example : get_fdt_addr (arch_mem (FDT_MAX_SIZE - 0x1000)) = DRAM_MEM_START := by decide
example : round_to_pagesize (2 ^ 64 - 1) = 0 := by decide
example : initrd_load_addr (arch_mem 0x1000) (2 ^ 64 - 1) = some DRAM_MEM_START := by decide
example : initrd_load_addr_spec (arch_mem 0x1000) (2 ^ 64 - 1) = none := by decide
example : initrd_load_addr (arch_mem 0x400000) 0x1800 = some 0x801FE000 := by decide

/-! ### Network byte-order accessors (dumbo/pdu/bytes.rs)

Byte buffers are `List Nat` (each entry one byte). A Rust panic is
modelled as `none`; a normal return as `some`. Release-mode `usize`
arithmetic wraps, hence the explicit `% 2^64`. -/

/-- Modelled from the spec: `byte_order::read_be_u16` (external
`utils::byte_order` module) reads a big-endian `u16` from the first two
bytes of a slice; fewer than two bytes is a panic. -/
def read_be_u16 : List Nat → Option Nat
  | b0 :: b1 :: _ => some (b0 * 256 + b1)
  | _ => none

/-- Modelled from the spec: `byte_order::read_be_u32` reads a big-endian
`u32` from the first four bytes of a slice; fewer is a panic. -/
def read_be_u32 : List Nat → Option Nat
  | b0 :: b1 :: b2 :: b3 :: _ => some (((b0 * 256 + b1) * 256 + b2) * 256 + b3)
  | _ => none

/-- Modelled from the spec: `byte_order::write_be_u16` overwrites the
first two bytes of a slice with the big-endian bytes of a `u16`; fewer
than two bytes is a panic. -/
def write_be_u16 (input : List Nat) (value : Nat) : Option (List Nat) :=
  match input with
  | _ :: _ :: rest =>
    some ((value % 2 ^ 16) / 256 :: (value % 2 ^ 16) % 256 :: rest)
  | _ => none

/-- Modelled from the spec: `byte_order::write_be_u32` overwrites the
first four bytes of a slice with the big-endian bytes of a `u32`. -/
def write_be_u32 (input : List Nat) (value : Nat) : Option (List Nat) :=
  match input with
  | _ :: _ :: _ :: _ :: rest =>
    some ((value % 2 ^ 32) / 2 ^ 24 :: (value % 2 ^ 32) / 2 ^ 16 % 256 ::
          (value % 2 ^ 32) / 2 ^ 8 % 256 :: (value % 2 ^ 32) % 256 :: rest)
  | _ => none

/-- Embedding of `NetworkBytes::ntohs_unchecked` (bytes.rs:82-87):
`read_be_u16(&self[offset..])`; slicing past the end panics. -/
def ntohs_unchecked (buf : List Nat) (offset : Nat) : Option Nat :=
  if offset ≤ buf.length then read_be_u16 (buf.drop offset) else none

/-- Embedding of `NetworkBytes::ntohl_unchecked` (bytes.rs:95-97). -/
def ntohl_unchecked (buf : List Nat) (offset : Nat) : Option Nat :=
  if offset ≤ buf.length then read_be_u32 (buf.drop offset) else none

/-- Embedding of `NetworkBytes::shrink_unchecked` for slices
(bytes.rs:139-148): `self = &self[..len]`; `len > self.len()` panics. -/
def shrink_unchecked (buf : List Nat) (len : Nat) : Option (List Nat) :=
  if len ≤ buf.length then some (buf.take len) else none

/-- Embedding of `NetworkBytesMut::htons_unchecked` (bytes.rs:119-122):
`assert!(offset <= self.len() - size_of::<u16>())` with release-mode
wrapping `usize` subtraction, then `write_be_u16(&mut self[offset..])`.
Any failing assert, out-of-bounds slice, or short write is a panic. -/
def htons_unchecked (buf : List Nat) (offset value : Nat) : Option (List Nat) :=
  if offset ≤ (buf.length + (2 ^ 64 - 2)) % 2 ^ 64 then
    if offset ≤ buf.length then
      match write_be_u16 (buf.drop offset) value with
      | some s => some (buf.take offset ++ s)
      | none => none
    else none
  else none

/-- Embedding of `NetworkBytesMut::htonl_unchecked` (bytes.rs:131-134). -/
def htonl_unchecked (buf : List Nat) (offset value : Nat) : Option (List Nat) :=
  if offset ≤ (buf.length + (2 ^ 64 - 4)) % 2 ^ 64 then
    if offset ≤ buf.length then
      match write_be_u32 (buf.drop offset) value with
      | some s => some (buf.take offset ++ s)
      | none => none
    else none
  else none

example : htons_unchecked [0, 0] 1 0 = none := by decide
example : htonl_unchecked [0, 0, 0, 0] 1 0 = none := by decide
example : htons_unchecked [9, 9, 9, 9] 1 123 = some [9, 0, 123, 9] := by decide
example :
    (htons_unchecked [9, 9, 9, 9] 1 123).bind (fun b => ntohs_unchecked b 1) =
      some 123 := by decide
example :
    (htonl_unchecked [9, 9, 9, 9, 9, 9] 1 1234).bind (fun b => ntohl_unchecked b 1) =
      some 1234 := by decide
example : shrink_unchecked [1, 2, 3, 4] 2 = some [1, 2] := by decide

/-! ### Boot orchestrator (mod.rs:66-123)

`configure_system_for_boot` is embedded with its external collaborators
(spec §6) as opaque functions over an abstract vCPU state type `V` and
CPU-configuration type `C`. A failed `expect` (Rust panic) is a distinct
outcome from a returned `ConfigurationError`. -/

/-- The `ConfigurationError` variants of mod.rs:38-51. -/
inductive ConfigurationError where
  | SetupFDT
  | MemoryError
  | KernelFile
  | KernelLoader
  | VcpuConfig
  | VcpuConfigure
deriving DecidableEq

/-- Observable effects of a successful `configure_system_for_boot` call:
the MPIDR list handed to `fdt::create_fdt`, the FDT blob it returned,
and the guest address the blob was written to. -/
structure BootEffects where
  vcpu_mpidr : List Nat
  fdt : List Nat
  fdt_address : Nat
deriving DecidableEq

/-- Result of one orchestrator call: a Rust panic (failed `expect`), a
returned `ConfigurationError`, or success with its effects. -/
inductive BootOutcome where
  | panicked
  | error (e : ConfigurationError)
  | ok (effects : BootEffects)
deriving DecidableEq

/-- Modelled from the spec: the orchestrator's external collaborators
(spec §6 "Consumed collaborator interfaces") as opaque functions —
`CpuConfiguration::new` (fallible, samples vCPU state),
`CpuConfiguration::apply_template` (pure), per-vCPU
`kvm_vcpu.configure` (fallible, returns the programmed state),
`kvm_vcpu.get_mpidr`, `fdt::create_fdt` (takes the MPIDR list and the
NUL-terminated cmdline, fallible), and whether
`guest_memory.write_slice` succeeds for a blob at an address. -/
structure BootEnv (V C : Type) where
  cpuConfigurationNew : List V → Option C
  applyTemplate : C → C
  configure : C → V → Option V
  get_mpidr : V → Nat
  create_fdt : List Nat → List Nat → Option (List Nat)
  write_slice_ok : List Nat → Nat → Bool

/-- Modelled from the spec: `Cmdline::as_cstring` (external
`linux_loader` crate) serializes the boot command line to a
NUL-terminated byte string and fails exactly when the line contains an
interior NUL byte (spec §4.F step 7). -/
def as_cstring (line : List Nat) : Option (List Nat) :=
  if line.contains 0 then none else some (line ++ [0])

/-- The `for vcpu in vcpus.iter_mut()` loop of mod.rs:89-98: programs
each vCPU in slice order, stopping at the first failure (`?`). Returns
the slice of programmed states. -/
def configure_all (f : V → Option V) : List V → Option (List V)
  | [] => some []
  | v :: rest =>
    match f v with
    | none => none
    | some v2 =>
      match configure_all f rest with
      | none => none
      | some rest2 => some (v2 :: rest2)

/-- Embedding of `configure_system_for_boot` (mod.rs:66-123): build the
base CPU configuration, apply the template, program every vCPU, collect
MPIDRs in slice order, serialize the cmdline (`expect` panics on
failure), build the FDT, compute the FDT address, write the blob. -/
def configure_system_for_boot (env : BootEnv V C) (guest_memory : GuestMem)
    (vcpus : List V) (boot_cmdline : List Nat) : BootOutcome :=
  match env.cpuConfigurationNew vcpus with
  | none => .error .VcpuConfig
  | some cpu_config0 =>
    let cpu_config := env.applyTemplate cpu_config0
    match configure_all (env.configure cpu_config) vcpus with
    | none => .error .VcpuConfigure
    | some vcpus2 =>
      let vcpu_mpidr := vcpus2.map env.get_mpidr
      match as_cstring boot_cmdline with
      | none => .panicked
      | some cmdline =>
        match env.create_fdt vcpu_mpidr cmdline with
        | none => .error .SetupFDT
        | some fdt =>
          let fdt_address := get_fdt_addr guest_memory
          if env.write_slice_ok fdt fdt_address then
            .ok ⟨vcpu_mpidr, fdt, fdt_address⟩
          else
            .error .MemoryError

/-- A trivial concrete collaborator environment over `V = Nat`,
`C = Unit` (every step succeeds), used to instantiate hypotheses of the
orchestrator theorems on concrete inputs. -/
def demoEnv : BootEnv Nat Unit where
  cpuConfigurationNew := fun _ => some ()
  applyTemplate := id
  configure := fun _ v => some (v + 100)
  get_mpidr := fun v => v
  create_fdt := fun mpidrs cmdline => some (mpidrs ++ cmdline)
  write_slice_ok := fun _ _ => true

example :
    configure_system_for_boot demoEnv (arch_mem 0x1000) [1, 2, 3] [65] =
      .ok ⟨[101, 102, 103], [101, 102, 103, 65, 0], DRAM_MEM_START⟩ := by decide

example :
    configure_system_for_boot demoEnv (arch_mem 0x1000) [1, 2] [65, 0, 66] =
      .panicked := by decide

/-! ### Helper lemmas -/

/-- Masking a `u64` with `!(2^12 - 1)` clears the low 12 bits, i.e.
rounds down to a multiple of `2^12`. -/
theorem land_mask_eq (x : Nat) (h : x < 2 ^ 64) :
    x &&& (2 ^ 64 - 2 ^ 12) = x / 2 ^ 12 * 2 ^ 12 := by
  have hmask : (2 ^ 64 - 2 ^ 12 : Nat) = (2 ^ 52 - 1) <<< 12 := by
    rw [Nat.shiftLeft_eq]; norm_num
  have hrhs : x / 2 ^ 12 * 2 ^ 12 = (x >>> 12) <<< 12 := by
    rw [Nat.shiftRight_eq_div_pow, Nat.shiftLeft_eq]
  rw [hmask, hrhs]
  apply Nat.eq_of_testBit_eq
  intro i
  rw [Nat.testBit_and, Nat.testBit_shiftLeft, Nat.testBit_shiftLeft,
    Nat.testBit_shiftRight, Nat.testBit_two_pow_sub_one]
  by_cases h12 : 12 ≤ i
  · by_cases h64 : i < 64
    · have h52 : i - 12 < 52 := by omega
      have hi : 12 + (i - 12) = i := by omega
      simp [ge_iff_le, h12, h52, hi]
    · have hx : x.testBit i = false :=
        Nat.testBit_lt_two_pow
          (Nat.lt_of_lt_of_le h (Nat.pow_le_pow_right (by norm_num) (by omega)))
      have h52 : ¬ i - 12 < 52 := by omega
      have hi : 12 + (i - 12) = i := by omega
      simp [ge_iff_le, h12, h52, hi, hx]
  · simp [ge_iff_le, h12]

/-- Computation rule: `round_to_pagesize` is the wrapped sum rounded
down to a page multiple. -/
theorem round_to_pagesize_eq (n : Nat) :
    round_to_pagesize n =
      ((n + (GUEST_PAGE_SIZE - 1)) % 2 ^ 64) / GUEST_PAGE_SIZE * GUEST_PAGE_SIZE := by
  have hp : GUEST_PAGE_SIZE = 2 ^ 12 := by decide
  unfold round_to_pagesize
  rw [hp]
  exact land_mask_eq _ (Nat.mod_lt _ (by norm_num))

/-- Rounding always yields a multiple of the page size. -/
theorem dvd_round_to_pagesize (n : Nat) :
    GUEST_PAGE_SIZE ∣ round_to_pagesize n := by
  rw [round_to_pagesize_eq]
  exact dvd_mul_left _ _

/-- When the rounding addition does not overflow `u64`, the code's
masked rounding agrees with the spec's mathematical round-up. -/
theorem round_to_pagesize_no_overflow (n : Nat)
    (h : n + (GUEST_PAGE_SIZE - 1) < 2 ^ 64) :
    round_to_pagesize n = roundUpSpec n := by
  rw [round_to_pagesize_eq, Nat.mod_eq_of_lt h]
  rfl

/-- The spec-side round-up is the least page multiple at or above `n`. -/
theorem roundUpSpec_bounds (n : Nat) :
    GUEST_PAGE_SIZE ∣ roundUpSpec n ∧ n ≤ roundUpSpec n ∧
      roundUpSpec n < n + GUEST_PAGE_SIZE := by
  refine ⟨dvd_mul_left _ _, ?_, ?_⟩ <;>
    · unfold roundUpSpec GUEST_PAGE_SIZE
      omega

/-- Successful `configure_all` returns a list of the same length whose
`i`-th entry is the programmed state of the `i`-th input vCPU. -/
theorem configure_all_spec {V : Type} (f : V → Option V) :
    ∀ (l l2 : List V), configure_all f l = some l2 →
      l2.length = l.length ∧
      ∀ i (hi : i < l.length) (hi2 : i < l2.length),
        f (l.get ⟨i, hi⟩) = some (l2.get ⟨i, hi2⟩)
  | [], l2, h => by
    simp only [configure_all, Option.some.injEq] at h
    subst h
    exact ⟨rfl, fun i hi => by simp at hi⟩
  | v :: rest, l2, h => by
    unfold configure_all at h
    cases hf : f v with
    | none => rw [hf] at h; simp at h
    | some v2 =>
      rw [hf] at h
      cases hr : configure_all f rest with
      | none => rw [hr] at h; simp at h
      | some rest2 =>
        rw [hr] at h
        simp only [Option.some.injEq] at h
        subst h
        obtain ⟨hlen, hget⟩ := configure_all_spec f rest rest2 hr
        refine ⟨by simp [hlen], ?_⟩
        intro i hi hi2
        match i with
        | 0 => simpa using hf
        | i + 1 =>
          simpa using hget i (by simpa using hi) (by simpa using hi2)

/-- Writing a `u16` fails exactly on slices shorter than two bytes. -/
theorem write_be_u16_eq_none (l : List Nat) (v : Nat) :
    write_be_u16 l v = none ↔ l.length < 2 := by
  match l with
  | [] => simp [write_be_u16]
  | [a] => simp [write_be_u16]
  | a :: b :: t => simp [write_be_u16]

/-- Writing a `u32` fails exactly on slices shorter than four bytes. -/
theorem write_be_u32_eq_none (l : List Nat) (v : Nat) :
    write_be_u32 l v = none ↔ l.length < 4 := by
  match l with
  | [] => simp [write_be_u32]
  | [a] => simp [write_be_u32]
  | [a, b] => simp [write_be_u32]
  | [a, b, c] => simp [write_be_u32]
  | a :: b :: c :: d :: t => simp [write_be_u32]

/-- Successful `write_be_u16` replaces the first two bytes and keeps the
tail. -/
theorem write_be_u16_of_le (l : List Nat) (v : Nat) (h : 2 ≤ l.length) :
    write_be_u16 l v =
      some ((v % 2 ^ 16) / 256 :: (v % 2 ^ 16) % 256 :: l.drop 2) := by
  match l with
  | [] => simp at h
  | [a] => simp at h
  | a :: b :: t => simp [write_be_u16]

/-- Successful `write_be_u32` replaces the first four bytes and keeps
the tail. -/
theorem write_be_u32_of_le (l : List Nat) (v : Nat) (h : 4 ≤ l.length) :
    write_be_u32 l v =
      some ((v % 2 ^ 32) / 2 ^ 24 :: (v % 2 ^ 32) / 2 ^ 16 % 256 ::
            (v % 2 ^ 32) / 2 ^ 8 % 256 :: (v % 2 ^ 32) % 256 :: l.drop 4) := by
  match l with
  | [] => simp at h
  | [a] => simp at h
  | [a, b] => simp at h
  | [a, b, c] => simp at h
  | a :: b :: c :: d :: t => simp [write_be_u32]

/-- In-bounds `htons_unchecked` rewrites exactly bytes `offset` and
`offset + 1`. -/
theorem htons_unchecked_of_le (buf : List Nat) (off v : Nat)
    (hlen : buf.length < 2 ^ 64) (h : off + 2 ≤ buf.length) :
    htons_unchecked buf off v =
      some (buf.take off ++ (v % 2 ^ 16) / 256 :: (v % 2 ^ 16) % 256 ::
            buf.drop (off + 2)) := by
  unfold htons_unchecked
  have hmod : (buf.length + (2 ^ 64 - 2)) % 2 ^ 64 = buf.length - 2 := by omega
  rw [hmod, if_pos (by omega), if_pos (by omega),
    write_be_u16_of_le _ _ (by simp; omega)]
  rw [List.drop_drop]

/-- Out-of-bounds `htons_unchecked` panics. -/
theorem htons_unchecked_of_gt (buf : List Nat) (off v : Nat)
    (h : buf.length < off + 2) :
    htons_unchecked buf off v = none := by
  unfold htons_unchecked
  by_cases hc : off ≤ (buf.length + (2 ^ 64 - 2)) % 2 ^ 64
  · rw [if_pos hc]
    by_cases hc2 : off ≤ buf.length
    · rw [if_pos hc2, (write_be_u16_eq_none _ _).mpr (by simp; omega)]
    · rw [if_neg hc2]
  · rw [if_neg hc]

/-- In-bounds `htonl_unchecked` rewrites exactly bytes `offset` through
`offset + 3`. -/
theorem htonl_unchecked_of_le (buf : List Nat) (off v : Nat)
    (hlen : buf.length < 2 ^ 64) (h : off + 4 ≤ buf.length) :
    htonl_unchecked buf off v =
      some (buf.take off ++ (v % 2 ^ 32) / 2 ^ 24 :: (v % 2 ^ 32) / 2 ^ 16 % 256 ::
            (v % 2 ^ 32) / 2 ^ 8 % 256 :: (v % 2 ^ 32) % 256 ::
            buf.drop (off + 4)) := by
  unfold htonl_unchecked
  have hmod : (buf.length + (2 ^ 64 - 4)) % 2 ^ 64 = buf.length - 4 := by omega
  rw [hmod, if_pos (by omega), if_pos (by omega),
    write_be_u32_of_le _ _ (by simp; omega)]
  rw [List.drop_drop]

/-- Out-of-bounds `htonl_unchecked` panics. -/
theorem htonl_unchecked_of_gt (buf : List Nat) (off v : Nat)
    (h : buf.length < off + 4) :
    htonl_unchecked buf off v = none := by
  unfold htonl_unchecked
  by_cases hc : off ≤ (buf.length + (2 ^ 64 - 4)) % 2 ^ 64
  · rw [if_pos hc]
    by_cases hc2 : off ≤ buf.length
    · rw [if_pos hc2, (write_be_u32_eq_none _ _).mpr (by simp; omega)]
    · rw [if_neg hc2]
  · rw [if_neg hc]

/-- When the checked subtraction is defined and in range, `get_fdt_addr`
returns `last_addr - (FDT_MAX_SIZE - 1)`. -/
theorem get_fdt_addr_of_in_range (mem : GuestMem)
    (h1 : FDT_MAX_SIZE - 1 ≤ mem.last_addr)
    (h2 : mem.address_in_range (mem.last_addr - (FDT_MAX_SIZE - 1)) = true) :
    get_fdt_addr mem = mem.last_addr - (FDT_MAX_SIZE - 1) := by
  unfold get_fdt_addr checked_sub
  rw [if_pos h1]
  simp [h2]

/-- Otherwise `get_fdt_addr` falls back to `DRAM_MEM_START`. -/
theorem get_fdt_addr_fallback (mem : GuestMem)
    (h : ¬ (FDT_MAX_SIZE - 1 ≤ mem.last_addr ∧
        mem.address_in_range (mem.last_addr - (FDT_MAX_SIZE - 1)) = true)) :
    get_fdt_addr mem = DRAM_MEM_START := by
  unfold get_fdt_addr checked_sub
  by_cases h1 : FDT_MAX_SIZE - 1 ≤ mem.last_addr
  · rw [if_pos h1]
    cases hb : mem.address_in_range (mem.last_addr - (FDT_MAX_SIZE - 1)) with
    | true => exact absurd ⟨h1, hb⟩ h
    | false => simp [hb]
  · rw [if_neg h1]

/-! ### Claim theorems -/

/-- C1: `get_fdt_addr(mem)` returns `last_addr() − (FDT_MAX_SIZE − 1)`
whenever that checked subtraction is defined and the resulting address
is within guest memory, and returns `DRAM_MEM_START` otherwise; in
particular, for a guest memory of size `FDT_MAX_SIZE + 0x1000` starting
at `DRAM_MEM_START` it returns `DRAM_MEM_START + 0x1000`, and for one of
size exactly `FDT_MAX_SIZE` it returns `DRAM_MEM_START`. -/
theorem get_fdt_addr_correct (mem : GuestMem) :
    (FDT_MAX_SIZE - 1 ≤ mem.last_addr →
      mem.address_in_range (mem.last_addr - (FDT_MAX_SIZE - 1)) = true →
      get_fdt_addr mem = mem.last_addr - (FDT_MAX_SIZE - 1)) ∧
    (¬ (FDT_MAX_SIZE - 1 ≤ mem.last_addr ∧
        mem.address_in_range (mem.last_addr - (FDT_MAX_SIZE - 1)) = true) →
      get_fdt_addr mem = DRAM_MEM_START) ∧
    get_fdt_addr (arch_mem (FDT_MAX_SIZE + 0x1000)) = DRAM_MEM_START + 0x1000 ∧
    get_fdt_addr (arch_mem FDT_MAX_SIZE) = DRAM_MEM_START :=
  ⟨get_fdt_addr_of_in_range mem, get_fdt_addr_fallback mem, by decide, by decide⟩

/-- C1 witness: the first branch applied to the concrete guest memory of
size `FDT_MAX_SIZE + 0x1000`. -/
theorem get_fdt_addr_correct_witness :
    get_fdt_addr (arch_mem (FDT_MAX_SIZE + 0x1000)) =
      (arch_mem (FDT_MAX_SIZE + 0x1000)).last_addr - (FDT_MAX_SIZE - 1) :=
  (get_fdt_addr_correct (arch_mem (FDT_MAX_SIZE + 0x1000))).1 (by decide) (by decide)

/-- C2 counterexample: for the guest memory of size
`FDT_MAX_SIZE + 0x1000` the checked subtraction is defined and in range,
yet `get_fdt_addr` equals `last_addr − (FDT_MAX_SIZE − 1)` and differs
from the claimed `last_addr − (FDT_MAX_SIZE − 1) + 1`. -/
theorem get_fdt_addr_plus_one_cex :
    FDT_MAX_SIZE - 1 ≤ (arch_mem (FDT_MAX_SIZE + 0x1000)).last_addr ∧
    (arch_mem (FDT_MAX_SIZE + 0x1000)).address_in_range
      ((arch_mem (FDT_MAX_SIZE + 0x1000)).last_addr - (FDT_MAX_SIZE - 1)) = true ∧
    get_fdt_addr (arch_mem (FDT_MAX_SIZE + 0x1000)) ≠
      (arch_mem (FDT_MAX_SIZE + 0x1000)).last_addr - (FDT_MAX_SIZE - 1) + 1 := by
  decide

/-- C2 (amended): when `last_addr() − (FDT_MAX_SIZE − 1)` is defined and
in range, `get_fdt_addr(mem)` equals that value itself (no `+ 1`), which
is exactly the statement that there are `FDT_MAX_SIZE` bytes from
`fdt_addr` to `last_addr()` inclusive; otherwise `DRAM_MEM_START`. -/
theorem get_fdt_addr_span (mem : GuestMem) :
    (FDT_MAX_SIZE - 1 ≤ mem.last_addr →
      mem.address_in_range (mem.last_addr - (FDT_MAX_SIZE - 1)) = true →
      get_fdt_addr mem = mem.last_addr - (FDT_MAX_SIZE - 1) ∧
      get_fdt_addr mem + (FDT_MAX_SIZE - 1) = mem.last_addr ∧
      mem.last_addr + 1 - get_fdt_addr mem = FDT_MAX_SIZE) ∧
    (¬ (FDT_MAX_SIZE - 1 ≤ mem.last_addr ∧
        mem.address_in_range (mem.last_addr - (FDT_MAX_SIZE - 1)) = true) →
      get_fdt_addr mem = DRAM_MEM_START) := by
  refine ⟨fun h1 h2 => ?_, get_fdt_addr_fallback mem⟩
  have he := get_fdt_addr_of_in_range mem h1 h2
  have hF : 1 ≤ FDT_MAX_SIZE := by decide
  refine ⟨he, ?_, ?_⟩ <;> omega

/-- C2 witness: the amended branch applied to the concrete guest memory
of size exactly `FDT_MAX_SIZE`. -/
theorem get_fdt_addr_span_witness :
    get_fdt_addr (arch_mem FDT_MAX_SIZE) =
      (arch_mem FDT_MAX_SIZE).last_addr - (FDT_MAX_SIZE - 1) ∧
    get_fdt_addr (arch_mem FDT_MAX_SIZE) + (FDT_MAX_SIZE - 1) =
      (arch_mem FDT_MAX_SIZE).last_addr ∧
    (arch_mem FDT_MAX_SIZE).last_addr + 1 - get_fdt_addr (arch_mem FDT_MAX_SIZE) =
      FDT_MAX_SIZE :=
  (get_fdt_addr_span (arch_mem FDT_MAX_SIZE)).1 (by decide) (by decide)

/-- C3 counterexample: at `initrd_size = 2^64 − 1` the rounding addition
overflows; in release-mode `usize` arithmetic it wraps and the mask
yields 0, so the code returns `Some(DRAM_MEM_START)` on a 4 KiB guest
memory, where the claim ("None whenever the arithmetic overflows")
requires `None`. -/
theorem initrd_load_addr_overflow_cex :
    initrd_load_addr (arch_mem 0x1000) (2 ^ 64 - 1) = some DRAM_MEM_START ∧
    initrd_load_addr_spec (arch_mem 0x1000) (2 ^ 64 - 1) = none ∧
    round_to_pagesize (2 ^ 64 - 1) = 0 := by
  decide

/-- C3 (amended): for every `initrd_size` whose rounding addition
`initrd_size + (GUEST_PAGE_SIZE − 1)` does not overflow `u64`, the code
behaves exactly as claimed: it rounds the size up to the least page
multiple (a multiple of `GUEST_PAGE_SIZE`, at least `initrd_size`, less
than `initrd_size + GUEST_PAGE_SIZE`), subtracts it from
`get_fdt_addr(mem)` by checked subtraction, returns the candidate iff
it is in guest memory, and returns `None` when the subtraction
underflows; for larger sizes the rounding wraps modulo `2^64` instead. -/
theorem initrd_load_addr_correct (mem : GuestMem) (n : Nat)
    (h : n + (GUEST_PAGE_SIZE - 1) < 2 ^ 64) :
    initrd_load_addr mem n = initrd_load_addr_spec mem n ∧
    GUEST_PAGE_SIZE ∣ roundUpSpec n ∧ n ≤ roundUpSpec n ∧
    roundUpSpec n < n + GUEST_PAGE_SIZE ∧
    (roundUpSpec n ≤ get_fdt_addr mem →
      initrd_load_addr mem n =
        if mem.address_in_range (get_fdt_addr mem - roundUpSpec n) then
          some (get_fdt_addr mem - roundUpSpec n)
        else none) ∧
    (get_fdt_addr mem < roundUpSpec n → initrd_load_addr mem n = none) := by
  have hr := round_to_pagesize_no_overflow n h
  obtain ⟨hd, hle, hlt⟩ := roundUpSpec_bounds n
  refine ⟨?_, hd, hle, hlt, ?_, ?_⟩
  · unfold initrd_load_addr initrd_load_addr_spec
    rw [hr]
  · intro hsub
    unfold initrd_load_addr checked_sub
    rw [hr, if_pos hsub]
  · intro hsub
    unfold initrd_load_addr checked_sub
    rw [hr, if_neg (by omega)]

/-- C3 witness: the refinement applied to a 4 MiB guest memory and a
6 KiB initrd. -/
theorem initrd_load_addr_correct_witness :
    initrd_load_addr (arch_mem 0x400000) 0x1800 =
      initrd_load_addr_spec (arch_mem 0x400000) 0x1800 :=
  (initrd_load_addr_correct (arch_mem 0x400000) 0x1800 (by decide)).1

/-- C4 counterexample: on a guest memory of `FDT_MAX_SIZE + 0x1001`
bytes (so `get_fdt_addr` is the unaligned `DRAM_MEM_START + 0x1001`) and
`initrd_size = 0` (rounded size 0), `initrd_load_addr` returns an
address that is neither a multiple of `GUEST_PAGE_SIZE` nor strictly
below `get_fdt_addr`. -/
theorem initrd_load_addr_aligned_cex :
    initrd_load_addr (arch_mem (FDT_MAX_SIZE + 0x1001)) 0 =
      some (DRAM_MEM_START + 0x1001) ∧
    (DRAM_MEM_START + 0x1001) % GUEST_PAGE_SIZE ≠ 0 ∧
    ¬ (DRAM_MEM_START + 0x1001 <
        get_fdt_addr (arch_mem (FDT_MAX_SIZE + 0x1001))) := by
  decide

/-- C4 (amended): every `Some` result of `initrd_load_addr(mem, n)` is
`get_fdt_addr(mem) − round_to_pagesize(n)`, hence at or below
`get_fdt_addr(mem)`; it is a multiple of `GUEST_PAGE_SIZE` whenever
`get_fdt_addr(mem)` is, and strictly below `get_fdt_addr(mem)` whenever
the rounded size is nonzero. -/
theorem initrd_load_addr_below_fdt (mem : GuestMem) (n a : Nat)
    (h : initrd_load_addr mem n = some a) :
    a = get_fdt_addr mem - round_to_pagesize n ∧
    a ≤ get_fdt_addr mem ∧
    (get_fdt_addr mem % GUEST_PAGE_SIZE = 0 → a % GUEST_PAGE_SIZE = 0) ∧
    (0 < round_to_pagesize n → a < get_fdt_addr mem) := by
  unfold initrd_load_addr checked_sub at h
  by_cases hsub : round_to_pagesize n ≤ get_fdt_addr mem
  · rw [if_pos hsub] at h
    have ha : a = get_fdt_addr mem - round_to_pagesize n := by
      by_cases hb : mem.address_in_range (get_fdt_addr mem - round_to_pagesize n) = true
      · simp [hb] at h
        omega
      · simp [Bool.not_eq_true] at hb
        simp [hb] at h
    have hdr : round_to_pagesize n % GUEST_PAGE_SIZE = 0 :=
      Nat.mod_eq_zero_of_dvd (dvd_round_to_pagesize n)
    refine ⟨ha, by omega, fun hfa => ?_, fun hpos => by omega⟩
    have hp : GUEST_PAGE_SIZE = 4096 := rfl
    rw [ha]
    rw [hp] at hfa hdr ⊢
    omega
  · rw [if_neg hsub] at h
    simp at h

/-- C4 witness: the amended invariant applied to a 4 MiB guest memory
and a 6 KiB initrd, whose placement is `0x801FE000`. -/
theorem initrd_load_addr_below_fdt_witness :
    (0x801FE000 : Nat) =
      get_fdt_addr (arch_mem 0x400000) - round_to_pagesize 0x1800 ∧
    (0x801FE000 : Nat) ≤ get_fdt_addr (arch_mem 0x400000) ∧
    (get_fdt_addr (arch_mem 0x400000) % GUEST_PAGE_SIZE = 0 →
      (0x801FE000 : Nat) % GUEST_PAGE_SIZE = 0) ∧
    (0 < round_to_pagesize 0x1800 →
      (0x801FE000 : Nat) < get_fdt_addr (arch_mem 0x400000)) :=
  initrd_load_addr_below_fdt (arch_mem 0x400000) 0x1800 0x801FE000 (by decide)

/-- C5: `arch_memory_regions(size)` returns exactly one region, starting
at `DRAM_MEM_START`, of length `min(size, DRAM_MEM_MAX_SIZE)`, and never
fails; the in-source test scenarios `1 << 29` (below the cap) and
`1 << 41` (clamped to the cap) follow. -/
theorem arch_memory_regions_correct (size : Nat) :
    arch_memory_regions size = [(DRAM_MEM_START, min size DRAM_MEM_MAX_SIZE)] ∧
    (arch_memory_regions size).length = 1 ∧
    arch_memory_regions (2 ^ 29) = [(DRAM_MEM_START, 2 ^ 29)] ∧
    arch_memory_regions (2 ^ 41) = [(DRAM_MEM_START, DRAM_MEM_MAX_SIZE)] :=
  ⟨rfl, rfl, by decide, by decide⟩

/-- C6: on success of `configure_system_for_boot`, the MPIDR list handed
to the FDT builder is the per-vCPU `get_mpidr` of the programmed vCPU
states, in the order of the `vcpus` slice: entry `i` comes from the
state produced by programming `vcpus[i]`, so the MPIDRs are read only
after every vCPU has been programmed and are not reordered. -/
theorem mpidr_collection_ordered {V C : Type} (env : BootEnv V C)
    (mem : GuestMem) (vcpus : List V) (cmdline : List Nat) (eff : BootEffects)
    (h : configure_system_for_boot env mem vcpus cmdline = .ok eff) :
    ∃ cfg vcpus2,
      env.cpuConfigurationNew vcpus = some cfg ∧
      configure_all (env.configure (env.applyTemplate cfg)) vcpus = some vcpus2 ∧
      eff.vcpu_mpidr = vcpus2.map env.get_mpidr ∧
      vcpus2.length = vcpus.length ∧
      ∀ i (hi : i < vcpus.length) (hi2 : i < vcpus2.length),
        env.configure (env.applyTemplate cfg) (vcpus.get ⟨i, hi⟩) =
          some (vcpus2.get ⟨i, hi2⟩) := by
  unfold configure_system_for_boot at h
  split at h
  · simp at h
  next cfg hcfg =>
    dsimp only at h
    split at h
    · simp at h
    next vcpus2 hall =>
      obtain ⟨hlen, hget⟩ := configure_all_spec _ vcpus vcpus2 hall
      refine ⟨cfg, vcpus2, hcfg, hall, ?_, hlen, hget⟩
      split at h
      · simp at h
      next cstr hcs =>
        split at h
        · simp at h
        next fdt hfdt =>
          split at h
          · simp only [BootOutcome.ok.injEq] at h
            rw [← h]
          · simp at h

/-- C6 witness: the ordering property applied to the demo environment
with three vCPUs `[1, 2, 3]`, programmed to `[101, 102, 103]`. -/
theorem mpidr_collection_ordered_witness :
    ∃ cfg vcpus2,
      demoEnv.cpuConfigurationNew [1, 2, 3] = some cfg ∧
      configure_all (demoEnv.configure (demoEnv.applyTemplate cfg)) [1, 2, 3] =
        some vcpus2 ∧
      (BootEffects.mk [101, 102, 103] [101, 102, 103, 65, 0]
          DRAM_MEM_START).vcpu_mpidr = vcpus2.map demoEnv.get_mpidr ∧
      vcpus2.length = ([1, 2, 3] : List Nat).length ∧
      ∀ i (hi : i < ([1, 2, 3] : List Nat).length) (hi2 : i < vcpus2.length),
        demoEnv.configure (demoEnv.applyTemplate cfg)
            (([1, 2, 3] : List Nat).get ⟨i, hi⟩) =
          some (vcpus2.get ⟨i, hi2⟩) :=
  mpidr_collection_ordered demoEnv (arch_mem 0x1000) [1, 2, 3] [65]
    ⟨[101, 102, 103], [101, 102, 103, 65, 0], DRAM_MEM_START⟩ (by decide)

/-- C7: when the boot command line contains an interior NUL and the
earlier (fallible) steps succeed, the orchestrator panics at the
`expect` while serializing the command line — it does not return a
`ConfigurationError`; and for every command line without an interior
NUL the panic branch is unreachable. -/
theorem cmdline_nul_panic {V C : Type} (env : BootEnv V C) (mem : GuestMem)
    (vcpus : List V) (cmdline : List Nat) :
    (cmdline.contains 0 = true →
      ∀ cfg vcpus2, env.cpuConfigurationNew vcpus = some cfg →
        configure_all (env.configure (env.applyTemplate cfg)) vcpus = some vcpus2 →
        configure_system_for_boot env mem vcpus cmdline = .panicked) ∧
    (cmdline.contains 0 = false →
      configure_system_for_boot env mem vcpus cmdline ≠ .panicked) := by
  constructor
  · intro hnul cfg vcpus2 hcfg hall
    unfold configure_system_for_boot
    rw [hcfg]
    simp only
    rw [hall]
    unfold as_cstring
    rw [if_pos hnul]
  · intro hnul
    unfold configure_system_for_boot
    split
    · simp
    next cfg hcfg =>
      dsimp only
      split
      · simp
      next vcpus2 hall =>
        unfold as_cstring
        rw [hnul]
        simp only [Bool.false_eq_true, if_false]
        split
        · simp
        next fdt hfdt =>
          split
          · simp
          · simp

/-- C7 witness: the demo environment panics on the command line
`[65, 0, 66]` (interior NUL) and does not panic on `[65, 66]`. -/
theorem cmdline_nul_panic_witness :
    configure_system_for_boot demoEnv (arch_mem 0x1000) [1, 2] [65, 0, 66] =
      .panicked ∧
    configure_system_for_boot demoEnv (arch_mem 0x1000) [1, 2] [65, 66] ≠
      .panicked :=
  ⟨(cmdline_nul_panic demoEnv (arch_mem 0x1000) [1, 2] [65, 0, 66]).1
      (by decide) () [101, 102] (by decide) (by decide),
    (cmdline_nul_panic demoEnv (arch_mem 0x1000) [1, 2] [65, 66]).2 (by decide)⟩

/-- C8: the byte-accessor writes panic whenever `offset + width` exceeds
the buffer length — `htons_unchecked` (width 2) and `htonl_unchecked`
(width 4); in particular writing a `u16` at offset 1 into a 2-byte
buffer panics, and writing a `u32` at offset 1 into a 4-byte buffer
panics. -/
theorem byte_write_oob_panics (buf : List Nat) (off v : Nat) :
    (buf.length < off + 2 → htons_unchecked buf off v = none) ∧
    (buf.length < off + 4 → htonl_unchecked buf off v = none) ∧
    htons_unchecked [0, 0] 1 v = none ∧
    htonl_unchecked [0, 0, 0, 0] 1 v = none :=
  ⟨htons_unchecked_of_gt buf off v, htonl_unchecked_of_gt buf off v,
    htons_unchecked_of_gt _ _ _ (by decide),
    htonl_unchecked_of_gt _ _ _ (by decide)⟩

/-- C8 witness: the `u16` write at offset 1 of the 2-byte zero buffer
panics. -/
theorem byte_write_oob_panics_witness :
    htons_unchecked [0, 0] 1 0 = none :=
  (byte_write_oob_panics [0, 0] 1 0).1 (by decide)

/-- Reading a big-endian `u16` from a truncated slice that still covers
both bytes returns the same value. -/
theorem read_be_u16_take (a b : Nat) (t : List Nat) (k : Nat) (h : 2 ≤ k) :
    read_be_u16 ((a :: b :: t).take k) = some (a * 256 + b) := by
  match k with
  | 0 => omega
  | 1 => omega
  | k + 2 => simp [read_be_u16]

/-- Reading a big-endian `u32` from a truncated slice that still covers
all four bytes returns the same value. -/
theorem read_be_u32_take (a b c d : Nat) (t : List Nat) (k : Nat) (h : 4 ≤ k) :
    read_be_u32 ((a :: b :: c :: d :: t).take k) = some
      (((a * 256 + b) * 256 + c) * 256 + d) := by
  match k with
  | 0 => omega
  | 1 => omega
  | 2 => omega
  | 3 => omega
  | k + 4 => simp [read_be_u32]

/-- C9: a value written with `htons_unchecked`/`htonl_unchecked` at a
valid offset is read back unchanged by `ntohs_unchecked`/
`ntohl_unchecked` at that offset; after `shrink_unchecked` to any length
that still covers the field, the view has exactly the requested length
and the read still returns the written value. -/
theorem byte_accessor_roundtrip (buf : List Nat) (off v newLen : Nat)
    (hlen : buf.length < 2 ^ 64) :
    (v < 2 ^ 16 → off + 2 ≤ buf.length →
      ∃ buf2, htons_unchecked buf off v = some buf2 ∧
        buf2.length = buf.length ∧
        ntohs_unchecked buf2 off = some v ∧
        (off + 2 ≤ newLen → newLen ≤ buf.length →
          ∃ buf3, shrink_unchecked buf2 newLen = some buf3 ∧
            buf3.length = newLen ∧ ntohs_unchecked buf3 off = some v)) ∧
    (v < 2 ^ 32 → off + 4 ≤ buf.length →
      ∃ buf2, htonl_unchecked buf off v = some buf2 ∧
        buf2.length = buf.length ∧
        ntohl_unchecked buf2 off = some v ∧
        (off + 4 ≤ newLen → newLen ≤ buf.length →
          ∃ buf3, shrink_unchecked buf2 newLen = some buf3 ∧
            buf3.length = newLen ∧ ntohl_unchecked buf3 off = some v)) := by
  constructor
  · intro hv ho
    refine ⟨_, htons_unchecked_of_le buf off v hlen ho, ?_, ?_, ?_⟩
    · simp only [List.length_append, List.length_take, List.length_cons,
        List.length_drop]
      omega
    · have hdrop :
          (buf.take off ++ (v % 2 ^ 16) / 256 :: (v % 2 ^ 16) % 256 ::
            buf.drop (off + 2)).drop off =
          (v % 2 ^ 16) / 256 :: (v % 2 ^ 16) % 256 :: buf.drop (off + 2) :=
        List.drop_left' (by simp only [List.length_take]; omega)
      unfold ntohs_unchecked
      rw [if_pos (by
        simp only [List.length_append, List.length_take, List.length_cons,
          List.length_drop]
        omega), hdrop]
      simp only [read_be_u16, Option.some.injEq]
      omega
    · intro hs1 hs2
      refine ⟨(buf.take off ++ (v % 2 ^ 16) / 256 :: (v % 2 ^ 16) % 256 ::
        buf.drop (off + 2)).take newLen, ?_, ?_, ?_⟩
      · unfold shrink_unchecked
        rw [if_pos (by
          simp only [List.length_append, List.length_take, List.length_cons,
            List.length_drop]
          omega)]
      · simp only [List.length_take, List.length_append, List.length_cons,
          List.length_drop]
        omega
      · have hdrop :
            (buf.take off ++ (v % 2 ^ 16) / 256 :: (v % 2 ^ 16) % 256 ::
              buf.drop (off + 2)).drop off =
            (v % 2 ^ 16) / 256 :: (v % 2 ^ 16) % 256 :: buf.drop (off + 2) :=
          List.drop_left' (by simp only [List.length_take]; omega)
        unfold ntohs_unchecked
        rw [if_pos (by
          simp only [List.length_take, List.length_append, List.length_cons,
            List.length_drop]
          omega)]
        rw [List.drop_take, hdrop, read_be_u16_take _ _ _ _ (by omega)]
        simp only [Option.some.injEq]
        omega
  · intro hv ho
    refine ⟨_, htonl_unchecked_of_le buf off v hlen ho, ?_, ?_, ?_⟩
    · simp only [List.length_append, List.length_take, List.length_cons,
        List.length_drop]
      omega
    · have hdrop :
          (buf.take off ++ (v % 2 ^ 32) / 2 ^ 24 :: (v % 2 ^ 32) / 2 ^ 16 % 256 ::
            (v % 2 ^ 32) / 2 ^ 8 % 256 :: (v % 2 ^ 32) % 256 ::
            buf.drop (off + 4)).drop off =
          (v % 2 ^ 32) / 2 ^ 24 :: (v % 2 ^ 32) / 2 ^ 16 % 256 ::
            (v % 2 ^ 32) / 2 ^ 8 % 256 :: (v % 2 ^ 32) % 256 ::
            buf.drop (off + 4) :=
        List.drop_left' (by simp only [List.length_take]; omega)
      unfold ntohl_unchecked
      rw [if_pos (by
        simp only [List.length_append, List.length_take, List.length_cons,
          List.length_drop]
        omega), hdrop]
      simp only [read_be_u32, Option.some.injEq]
      omega
    · intro hs1 hs2
      refine ⟨(buf.take off ++ (v % 2 ^ 32) / 2 ^ 24 :: (v % 2 ^ 32) / 2 ^ 16 % 256 ::
        (v % 2 ^ 32) / 2 ^ 8 % 256 :: (v % 2 ^ 32) % 256 ::
        buf.drop (off + 4)).take newLen, ?_, ?_, ?_⟩
      · unfold shrink_unchecked
        rw [if_pos (by
          simp only [List.length_append, List.length_take, List.length_cons,
            List.length_drop]
          omega)]
      · simp only [List.length_take, List.length_append, List.length_cons,
          List.length_drop]
        omega
      · have hdrop :
            (buf.take off ++ (v % 2 ^ 32) / 2 ^ 24 :: (v % 2 ^ 32) / 2 ^ 16 % 256 ::
              (v % 2 ^ 32) / 2 ^ 8 % 256 :: (v % 2 ^ 32) % 256 ::
              buf.drop (off + 4)).drop off =
            (v % 2 ^ 32) / 2 ^ 24 :: (v % 2 ^ 32) / 2 ^ 16 % 256 ::
              (v % 2 ^ 32) / 2 ^ 8 % 256 :: (v % 2 ^ 32) % 256 ::
              buf.drop (off + 4) :=
          List.drop_left' (by simp only [List.length_take]; omega)
        unfold ntohl_unchecked
        rw [if_pos (by
          simp only [List.length_take, List.length_append, List.length_cons,
            List.length_drop]
          omega)]
        rw [List.drop_take, hdrop, read_be_u32_take _ _ _ _ _ _ (by omega)]
        simp only [Option.some.injEq]
        omega

/-- C9 witness: the round trip applied to an 8-byte buffer — `u16 = 123`
written and re-read at offset 1, `u32 = 1234` written and re-read at
offset 2. -/
theorem byte_accessor_roundtrip_witness :
    (htons_unchecked [9, 9, 9, 9, 9, 9, 9, 9] 1 123).bind
        (fun b => ntohs_unchecked b 1) = some 123 ∧
    (htonl_unchecked [9, 9, 9, 9, 9, 9, 9, 9] 2 1234).bind
        (fun b => ntohl_unchecked b 2) = some 1234 := by
  obtain ⟨b2, h1, h2, h3, h4⟩ :=
    (byte_accessor_roundtrip [9, 9, 9, 9, 9, 9, 9, 9] 1 123 4 (by decide)).1
      (by decide) (by decide)
  obtain ⟨c2, g1, g2, g3, g4⟩ :=
    (byte_accessor_roundtrip [9, 9, 9, 9, 9, 9, 9, 9] 2 1234 6 (by decide)).2
      (by decide) (by decide)
  constructor
  · rw [h1]
    exact h3
  · rw [g1]
    exact g3

/-- C10: `htons_unchecked` modifies only the two bytes at `offset` and
`offset + 1`, and `htonl_unchecked` only the four bytes at `offset`
through `offset + 3`; every other byte and the length of the buffer are
unchanged. -/
theorem byte_write_frame (buf : List Nat) (off v : Nat)
    (hlen : buf.length < 2 ^ 64) :
    (∀ buf2, htons_unchecked buf off v = some buf2 →
      buf2.length = buf.length ∧
      ∀ i, i ≠ off → i ≠ off + 1 → buf2[i]? = buf[i]?) ∧
    (∀ buf2, htonl_unchecked buf off v = some buf2 →
      buf2.length = buf.length ∧
      ∀ i, i ≠ off → i ≠ off + 1 → i ≠ off + 2 → i ≠ off + 3 →
        buf2[i]? = buf[i]?) := by
  constructor
  · intro buf2 h
    by_cases ho : off + 2 ≤ buf.length
    · rw [htons_unchecked_of_le buf off v hlen ho] at h
      simp only [Option.some.injEq] at h
      subst h
      constructor
      · simp only [List.length_append, List.length_take, List.length_cons,
          List.length_drop]
        omega
      · intro i h1 h2
        by_cases hi : i < off
        · rw [List.getElem?_append_left (by simp only [List.length_take]; omega),
            List.getElem?_take_of_lt hi]
        · rw [List.getElem?_append_right (by simp only [List.length_take]; omega)]
          have hto : (buf.take off).length = off := by
            simp only [List.length_take]
            omega
          rw [hto]
          obtain ⟨k, hk⟩ : ∃ k, i - off = k + 2 := ⟨i - off - 2, by omega⟩
          rw [hk]
          simp only [List.getElem?_cons_succ]
          rw [List.getElem?_drop]
          congr 1
          omega
    · rw [htons_unchecked_of_gt buf off v (by omega)] at h
      simp at h
  · intro buf2 h
    by_cases ho : off + 4 ≤ buf.length
    · rw [htonl_unchecked_of_le buf off v hlen ho] at h
      simp only [Option.some.injEq] at h
      subst h
      constructor
      · simp only [List.length_append, List.length_take, List.length_cons,
          List.length_drop]
        omega
      · intro i h1 h2 h3 h4
        by_cases hi : i < off
        · rw [List.getElem?_append_left (by simp only [List.length_take]; omega),
            List.getElem?_take_of_lt hi]
        · rw [List.getElem?_append_right (by simp only [List.length_take]; omega)]
          have hto : (buf.take off).length = off := by
            simp only [List.length_take]
            omega
          rw [hto]
          obtain ⟨k, hk⟩ : ∃ k, i - off = k + 4 := ⟨i - off - 4, by omega⟩
          rw [hk]
          simp only [List.getElem?_cons_succ]
          rw [List.getElem?_drop]
          congr 1
          omega
    · rw [htonl_unchecked_of_gt buf off v (by omega)] at h
      simp at h

/-- C10 witness: after writing `u16 = 123` at offset 1 of `[9, 9, 9, 9]`
(giving `[9, 0, 123, 9]`), the byte at index 3 is unchanged. -/
theorem byte_write_frame_witness :
    ([9, 0, 123, 9] : List Nat)[3]? = ([9, 9, 9, 9] : List Nat)[3]? :=
  ((byte_write_frame [9, 9, 9, 9] 1 123 (by decide)).1 [9, 0, 123, 9]
      (by decide)).2 3 (by decide) (by decide)

end Firecracker
